import Mathlib

/-!
# Verification of the macOS installer test-automation layer

A shallow embedding of the automation/orchestration helpers of the
ActivityWatch macOS installer test harness
(`tests/helpers/macos.ts`, `tests/installer_cli.spec.ts`,
`tests/gatekeeper_scenarios.spec.ts`) together with proofs about the
resource-ledger cleanup, DMG mount/unmount handling, interactive prompt
driving, Gatekeeper status classification, quarantine toggling, launch
timeout polling and process lookup.

External effects (execSync results, signal delivery, xattr success) are
passed in as explicit oracle parameters; fallible operations are embedded
in `Except`.
-/

namespace AWInstaller

/-! ## JavaScript string primitives

`String.prototype.includes`, modelled on the character list. -/

/-- Does `pat` occur as a prefix of `s` (character lists)? -/
def headMatch : List Char → List Char → Bool
  | [], _ => true
  | _ :: _, [] => false
  | p :: ps, c :: cs => p == c && headMatch ps cs

/-- Does `pat` occur as a contiguous substring of `s` (character lists)? -/
def occursWithin (pat : List Char) : List Char → Bool
  | [] => pat.isEmpty
  | c :: cs => headMatch pat (c :: cs) || occursWithin pat cs

/-- JavaScript `s.includes(pat)`. -/
def jsIncludes (s pat : String) : Bool := occursWithin pat.data s.data

/-! ## Interactive prompt driving

`installer_cli.spec.ts`, Terminal Mode Installation test, stdout handler
(lines 56–72).  The closure accumulates `stdout` but tests the incoming
chunk `output` against the prompt patterns; each matching chunk triggers a
`process.stdin.write`. -/

/-- Accumulated state of the Terminal Mode stdout handler: the captured
`stdout` buffer and the sequence of strings written to the child's stdin,
in order. -/
structure TerminalRun where
  stdout : String
  writes : List String
deriving DecidableEq

/-- Process one sequence of stdout `data` events through the Terminal Mode
Installation stdout handler.  Mirrors the source: `stdout += output;` then
`if (output.includes('Enter your work email:') || output.includes('📧'))`
write the test email, and independently
`if (output.includes('Ready to install?') || output.includes('🚀'))`
write `"y\n"`.  Both tests are applied to the chunk, not the buffer. -/
def terminalHandlerGo (testEmail : String) : List String → TerminalRun → TerminalRun
  | [], st => st
  | chunk :: rest, st =>
      let st := { st with stdout := st.stdout ++ chunk }
      let st :=
        if jsIncludes chunk "Enter your work email:" || jsIncludes chunk "📧" then
          { st with writes := st.writes ++ [testEmail ++ "\n"] }
        else st
      let st :=
        if jsIncludes chunk "Ready to install?" || jsIncludes chunk "🚀" then
          { st with writes := st.writes ++ ["y\n"] }
        else st
      terminalHandlerGo testEmail rest st

/-- Run the Terminal Mode stdout handler from the initial (empty) state. -/
def terminalHandlerRun (testEmail : String) (chunks : List String) : TerminalRun :=
  terminalHandlerGo testEmail chunks ⟨"", []⟩

/-- Specification-side description of one chunk's scripted responses:
what the Terminal Mode handler writes for a single `data` event, as a
function of that chunk alone. -/
def terminalChunkResponses (testEmail : String) (chunk : String) : List String :=
  (if jsIncludes chunk "Enter your work email:" || jsIncludes chunk "📧" then
      [testEmail ++ "\n"]
    else [])
  ++ (if jsIncludes chunk "Ready to install?" || jsIncludes chunk "🚀" then
      ["y\n"]
    else [])

/-! `installer_cli.spec.ts`, CLI Error Handling test, invalid-email stdout
handler (lines 179–193).  Unlike the Terminal Mode handler this closure
guards its response with the `emailPromptReceived` flag. -/

/-- Closure state of the CLI Error Handling stdout handler. -/
structure ErrHandlerState where
  stdout : String
  emailPromptReceived : Bool
  invalidEmailSent : Bool
  writes : List String
  resolved : Bool
deriving DecidableEq

/-- One stdout `data` event of the CLI Error Handling handler. -/
def errHandlerStep (st : ErrHandlerState) (chunk : String) : ErrHandlerState :=
  let st := { st with stdout := st.stdout ++ chunk }
  if !st.emailPromptReceived &&
      (jsIncludes chunk "Enter your work email:" || jsIncludes chunk "📧") then
    { st with
        emailPromptReceived := true
        invalidEmailSent := true
        writes := st.writes ++ ["invalid-email\n"] }
  else if st.invalidEmailSent && jsIncludes chunk "valid email" then
    { st with resolved := true }
  else st

/-- Process a sequence of stdout events through the CLI Error Handling
handler. -/
def errHandlerGo : List String → ErrHandlerState → ErrHandlerState
  | [], st => st
  | chunk :: rest, st => errHandlerGo rest (errHandlerStep st chunk)

/-- Run the CLI Error Handling handler from its initial closure state. -/
def errHandlerRun (chunks : List String) : ErrHandlerState :=
  errHandlerGo chunks ⟨"", false, false, [], false⟩

/-! ## Gatekeeper status (`MacOSAutomation.checkGatekeeperStatus`, lines 227–240)

The `spctl --assess --type execute` invocation is passed in as an oracle:
`none` means the assessment succeeded (exit 0), `some msg` means it threw
with stringified error `msg`. -/

/-- Result record of `checkGatekeeperStatus`. -/
structure GatekeeperStatus where
  blocked : Bool
  reason : Option String
deriving DecidableEq

/-- `checkGatekeeperStatus`: success yields `{blocked: false}`; a failed
assessment yields `blocked` with reason `'unsigned'` when the error message
contains `'rejected'` and `'unknown'` otherwise. -/
def checkGatekeeperStatus (assessment : Option String) : GatekeeperStatus :=
  match assessment with
  | none => ⟨false, none⟩
  | some errorMessage =>
      ⟨true, some (if jsIncludes errorMessage "rejected" then "unsigned" else "unknown")⟩

/-! ## Resource ledger: DMG unmount and end-of-scenario cleanup

`MacOSAutomation` tracks `mountedDMGs`, `spawnedProcesses` and
`tempDirectories`.  The `hdiutil detach` / `rm -rf` invocations succeed or
fail according to oracle functions; SIGTERM delivery effectiveness is an
oracle on the pid. -/

/-- A Node `ChildProcess` as observed by the helper: `killed` is Node's
flag recording that `kill` has been called on the handle; `alive` is
whether the underlying OS process is still running. -/
structure ChildProc where
  pid : Nat
  killed : Bool
  alive : Bool
deriving DecidableEq

/-- The three tracking lists of a `MacOSAutomation` instance. -/
structure AutomationState where
  mountedDMGs : List String
  spawnedProcesses : List ChildProc
  tempDirectories : List String
deriving DecidableEq

/-- One `hdiutil detach` invocation: clean or `-force`, with its outcome. -/
inductive DetachAttempt
  | clean (mountPoint : String) (ok : Bool)
  | forced (mountPoint : String) (ok : Bool)
deriving DecidableEq

/-- `array.splice(array.indexOf(x), 1)`: drop the first occurrence. -/
def removeFirst : List String → String → List String
  | [], _ => []
  | x :: xs, m => if x == m then xs else x :: removeFirst xs m

/-- Result of a successful `unmountDMG`: the updated `mountedDMGs` list and
the detach attempts performed. -/
structure UnmountOutcome where
  mountedDMGs : List String
  attempts : List DetachAttempt
deriving DecidableEq

/-- `MacOSAutomation.unmountDMG` (lines 53–76): try a clean detach; on
success splice the mount point out of `mountedDMGs`.  On failure, warn and
try once more with `-force`; a forced success only warns (and does not
update the list), a forced failure rethrows the error. -/
def unmountDMG (cleanOk forcedOk : String → Bool) (mounted : List String)
    (mountPoint : String) : Except (String × List DetachAttempt) UnmountOutcome :=
  if cleanOk mountPoint then
    .ok ⟨removeFirst mounted mountPoint, [.clean mountPoint true]⟩
  else if forcedOk mountPoint then
    .ok ⟨mounted, [.clean mountPoint false, .forced mountPoint true]⟩
  else
    .error ("Force unmount also failed",
      [.clean mountPoint false, .forced mountPoint false])

/-- The detach attempts an `unmountDMG` call performs, whether it returns
or throws. -/
def unmountAttempts (cleanOk forcedOk : String → Bool) (mounted : List String)
    (mountPoint : String) : List DetachAttempt :=
  match unmountDMG cleanOk forcedOk mounted mountPoint with
  | .ok o => o.attempts
  | .error e => e.2

/-- An externally visible release action performed by `cleanup`, in
program order. -/
inductive ReleaseEvent
  | sigterm (pid : Nat)
  | det (a : DetachAttempt)
  | rmDir (dir : String) (ok : Bool)
deriving DecidableEq

/-- Is this event a detach attempt? -/
def ReleaseEvent.isDet : ReleaseEvent → Bool
  | .det _ => true
  | _ => false

/-- Effect of the cleanup kill sweep on one child process:
`if (!process.killed) process.kill('SIGTERM')`.  Calling `kill` sets
Node's `killed` flag; the process dies only if the signal is effective
(`sigTermKills`).  Already-signalled handles are skipped. -/
def killSweepProc (sigTermKills : Nat → Bool) (p : ChildProc) : ChildProc :=
  if p.killed then p
  else { p with killed := true, alive := p.alive && !sigTermKills p.pid }

/-- The kill sweep of `cleanup` (lines 365–369): iterate the spawned
processes in order, signal the not-yet-killed ones.  Returns the final
process states and the emitted events. -/
def killLoop (sigTermKills : Nat → Bool) :
    List ChildProc → List ChildProc × List ReleaseEvent
  | [] => ([], [])
  | p :: ps =>
      let r := killLoop sigTermKills ps
      if p.killed then (p :: r.1, r.2)
      else (killSweepProc sigTermKills p :: r.1, .sigterm p.pid :: r.2)

theorem unmountDMG_ok_length_le {cleanOk forcedOk : String → Bool}
    {mounted : List String} {m : String} {o : UnmountOutcome}
    (h : unmountDMG cleanOk forcedOk mounted m = .ok o) :
    o.mountedDMGs.length ≤ mounted.length := by
  have hrm : ∀ l : List String, (removeFirst l m).length ≤ l.length := by
    intro l
    induction l with
    | nil => simp [removeFirst]
    | cons x xs ih =>
        rw [removeFirst]
        by_cases hx : (x == m) = true
        · rw [if_pos hx]
          exact Nat.le_succ _
        · rw [if_neg hx]
          simp only [List.length_cons]
          omega
  unfold unmountDMG at h
  by_cases h1 : cleanOk m = true
  · simp [h1] at h
    cases h
    exact hrm mounted
  · simp [eq_false_of_ne_true h1] at h
    by_cases h2 : forcedOk m = true
    · simp [h2] at h
      cases h
      exact le_refl _
    · simp [eq_false_of_ne_true h2] at h

/-- The DMG sweep of `cleanup` (lines 372–380): `for (const mountPoint of
this.mountedDMGs)` iterates the live array by index while a successful
`unmountDMG` splices elements out of that same array, so elements after a
removed one shift under the iterator; errors are caught and logged. -/
def mountLoop (cleanOk forcedOk : String → Bool) (i : Nat) (mounted : List String) :
    List String × List ReleaseEvent :=
  if h : i < mounted.length then
    let m := mounted.get ⟨i, h⟩
    match hu : unmountDMG cleanOk forcedOk mounted m with
    | .ok o =>
        let r := mountLoop cleanOk forcedOk (i + 1) o.mountedDMGs
        (r.1, o.attempts.map .det ++ r.2)
    | .error e =>
        let r := mountLoop cleanOk forcedOk (i + 1) mounted
        (r.1, e.2.map .det ++ r.2)
  else (mounted, [])
termination_by mounted.length - i
decreasing_by
  · have := unmountDMG_ok_length_le hu
    omega
  · omega

/-- The temp-directory sweep of `cleanup` (lines 383–391): `rm -rf` each
directory in order, catching failures. -/
def dirLoop (rmOk : String → Bool) : List String → List ReleaseEvent
  | [] => []
  | d :: ds => .rmDir d (rmOk d) :: dirLoop rmOk ds

/-- What `cleanup` produces: the automation state afterwards (all three
lists are reassigned to `[]`), the final states of the spawned-process
handles, and the release events in program order. -/
structure CleanupResult where
  state : AutomationState
  processes : List ChildProc
  events : List ReleaseEvent
deriving DecidableEq

/-- `MacOSAutomation.cleanup` (lines 361–394): signal spawned processes,
then unmount DMGs (each `unmountDMG` error caught and logged), then remove
temp directories (each `rm` error caught and logged), clearing each list
afterwards.  `kill('SIGTERM')` on a handle does not throw, so the only
fallible calls are inside the catch blocks. -/
def cleanup (sigTermKills : Nat → Bool) (cleanOk forcedOk rmOk : String → Bool)
    (st : AutomationState) : Except String CleanupResult :=
  let k := killLoop sigTermKills st.spawnedProcesses
  let m := mountLoop cleanOk forcedOk 0 st.mountedDMGs
  let d := dirLoop rmOk st.tempDirectories
  .ok ⟨⟨[], [], []⟩, k.1, k.2 ++ m.2 ++ d⟩

/-! ## Launch polling and timeout (`MacOSAutomation.launchApp`, lines 117–156)

`launchApp` spawns `open -W` and then polls on a `setInterval(…, 1000)`:
at each tick it first rejects with a timeout error if
`Date.now() - startTime > timeout`, and otherwise resolves if
`findProcessesByName` reports the app.  Ticks fire at elapsed times
`1000·k` for `k = 1, 2, …`. -/

/-- The `setInterval` period of the launch poll, in milliseconds. -/
def launchPollIntervalMs : Nat := 1000

/-- Outcome of the launch poll, tagged with the tick at which it fired. -/
inductive LaunchOutcome
  | resolvedAt (tick : Nat)
  | timedOutAt (tick : Nat)
deriving DecidableEq

/-- What the poll callback does at tick `k` (elapsed `1000·k` ms): reject
with the timeout error when elapsed exceeds `timeoutMs`, otherwise resolve
when the process list is non-empty (`found k`), otherwise keep polling. -/
def launchTickResult (timeoutMs : Nat) (found : Nat → Bool) (k : Nat) :
    Option LaunchOutcome :=
  if launchPollIntervalMs * k > timeoutMs then some (.timedOutAt k)
  else if found k then some (.resolvedAt k) else none

theorem launch_poll_halts (timeoutMs : Nat) (found : Nat → Bool) :
    ∃ j, (launchTickResult timeoutMs found (j + 1)).isSome = true := by
  refine ⟨timeoutMs, ?_⟩
  have h : launchPollIntervalMs * (timeoutMs + 1) > timeoutMs := by
    unfold launchPollIntervalMs
    omega
  simp [launchTickResult, h]

/-- The tick at which the launch poll settles: the first tick `k ≥ 1`
whose callback resolves or rejects. -/
def launchFinalTick (timeoutMs : Nat) (found : Nat → Bool) : Nat :=
  Nat.find (launch_poll_halts timeoutMs found) + 1

/-- The outcome of `launchApp`'s poll. -/
def launchOutcome (timeoutMs : Nat) (found : Nat → Bool) : LaunchOutcome :=
  (launchTickResult timeoutMs found (launchFinalTick timeoutMs found)).get
    (Nat.find_spec (launch_poll_halts timeoutMs found))

/-! ## Quarantine toggling and the security gate

`MacOSAutomation.setQuarantineAttribute` (lines 209–222) shells out to
`xattr -w com.apple.quarantine …` / `xattr -r -d com.apple.quarantine …`,
catching failures (warnings only).

Modelled from the spec: the OS-level semantics of the quarantine marker
and of the `spctl` execution-policy assessment are not part of the
repository's code.  Per the spec's glossary («Quarantine attribute: a
provenance marker on downloaded files that triggers the security gate»)
and the repository's own test expectations (a freshly quarantined artifact
must report `blocked == true`, and removing quarantine is used to make the
app launchable), the gate assessment denies exactly the quarantined paths,
with a message containing the rejection keyword. -/

/-- The OS quarantine state: which paths carry the marker. -/
def QuarantineState := String → Bool

/-- The effect of a successful `xattr` write/strip on the OS state. -/
def xattrApply (st : QuarantineState) (filePath : String) (enable : Bool) :
    QuarantineState :=
  fun x => if x == filePath then enable else st x

/-- `setQuarantineAttribute`: run the `xattr` command; on failure only a
warning is logged and the OS state is unchanged. -/
def setQuarantineAttribute (xattrOk : Bool) (st : QuarantineState)
    (filePath : String) (enable : Bool) : QuarantineState :=
  if xattrOk then xattrApply st filePath enable else st

/-- Modelled from the spec: `spctl --assess --type execute` denies exactly
the quarantined paths, with an error message containing `'rejected'`. -/
def spctlAssess (st : QuarantineState) (appPath : String) : Option String :=
  if st appPath then some "Error: Command failed: spctl --assess: rejected" else none

/-- `checkGatekeeperStatus` evaluated against the modelled OS state. -/
def checkGatekeeperStatusOS (st : QuarantineState) (appPath : String) :
    GatekeeperStatus :=
  checkGatekeeperStatus (spctlAssess st appPath)

/-! ## DMG mounting and plist parsing

`MacOSAutomation.mountDMG` (lines 25–48) checks the image exists, runs
`hdiutil attach … -plist`, and parses the output with
`parseDMGMountOutput` (lines 399–433).  The parser scans for
`<key>mount-point</key>` / `<key>dev-entry</key>` lines and matches the
next line with the regex literal `/<string>(.*)<\\/string>/`.  In a
JavaScript regex literal `\\` denotes one literal backslash character, so
this pattern requires the text `<\/string>` (with a real backslash) and
can never match the well-formed `</string>` close tag hdiutil prints. -/

/-- Split around the first occurrence of `pat`: `some (before, after)`. -/
def splitFirst (pat : List Char) : List Char → Option (List Char × List Char)
  | [] => if pat.isEmpty then some ([], []) else none
  | c :: cs =>
      if headMatch pat (c :: cs) then some ([], (c :: cs).drop pat.length)
      else
        match splitFirst pat cs with
        | some (b, a) => some (c :: b, a)
        | none => none

/-- Split around the last occurrence of `pat`: `some (before, after)`. -/
def splitLast (pat : List Char) : List Char → Option (List Char × List Char)
  | [] => if pat.isEmpty then some ([], []) else none
  | c :: cs =>
      match splitLast pat cs with
      | some (b, a) => some (c :: b, a)
      | none =>
          if headMatch pat (c :: cs) then some ([], (c :: cs).drop pat.length)
          else none

/-- The literal characters `<string>`. -/
def stringOpenTag : List Char := "<string>".data

/-- The close-tag text the regex `/<string>(.*)<\\/string>/` actually
demands: `<`, a literal backslash, `/string>`. -/
def stringCloseTag : List Char := "<\\/string>".data

/-- `nextLine.match(/<string>(.*)<\\/string>/)`, returning the capture
group: the leftmost `<string>` that is still followed by the (backslash
bearing) close tag starts the match, and the greedy `(.*)` group extends
to the last close tag after it.  Fuel-indexed so evaluation is structural;
each retry consumes a non-empty open tag, so `line.length + 1` fuel always
suffices. -/
def matchStringTagAux : Nat → List Char → Option (List Char)
  | 0, _ => none
  | fuel + 1, line =>
      match splitFirst stringOpenTag line with
      | none => none
      | some (_, t) =>
          match splitLast stringCloseTag t with
          | some (b, _) => some b
          | none => matchStringTagAux fuel t

/-- The regex match with enough fuel for the whole line. -/
def matchStringTag (line : List Char) : Option (List Char) :=
  matchStringTagAux (line.length + 1) line

/-- `plistData.split('\n')`. -/
def splitLines : List Char → List (List Char)
  | [] => [[]]
  | c :: cs =>
      if c == '\n' then [] :: splitLines cs
      else
        match splitLines cs with
        | [] => [[c]]
        | l :: ls => (c :: l) :: ls

/-- Drop a trailing run of characters satisfying `p`. -/
def dropTrailing (p : Char → Bool) (l : List Char) : List Char :=
  (l.reverse.dropWhile p).reverse

/-- JavaScript `s.trim()`. -/
def jsTrim (s : String) : String :=
  String.mk (dropTrailing Char.isWhitespace (s.data.dropWhile Char.isWhitespace))

/-- Node `path.basename` for POSIX paths. -/
def posixBasename (s : String) : String :=
  let t := dropTrailing (· == '/') s.data
  String.mk (t.reverse.takeWhile (· != '/')).reverse

/-- The literal characters `<key>mount-point</key>`. -/
def mountPointKey : List Char := "<key>mount-point</key>".data

/-- The literal characters `<key>dev-entry</key>`. -/
def devEntryKey : List Char := "<key>dev-entry</key>".data

/-- One iteration of the parser's scan: on a line containing the
mount-point (resp. dev-entry) key, match the next line against the string
regex and assign the capture when the match succeeds.  When the key sits
on the last line, `lines[i + 1]` is `undefined` and the `.match` call
throws a `TypeError`. -/
def parseLineStep (line : List Char) (next : Option (List Char))
    (acc : List Char × List Char) : Except String (List Char × List Char) := do
  let acc₁ ←
    if occursWithin mountPointKey line then
      match next with
      | none =>
          Except.error "TypeError: Cannot read properties of undefined (reading 'match')"
      | some nl => pure ((matchStringTag nl).getD acc.1, acc.2)
    else pure acc
  if occursWithin devEntryKey line then
    match next with
    | none =>
        Except.error "TypeError: Cannot read properties of undefined (reading 'match')"
    | some nl => pure (acc₁.1, (matchStringTag nl).getD acc₁.2)
  else pure acc₁

/-- The parser's scan over all lines, threading the last capture of each
key (later occurrences overwrite earlier ones). -/
def parseLoop : List (List Char) → List Char × List Char →
    Except String (List Char × List Char)
  | [], acc => .ok acc
  | line :: rest, acc => do
      let acc ← parseLineStep line rest.head? acc
      parseLoop rest acc

/-- The mount information record (`DMGMountInfo`). -/
structure DMGMountInfo where
  mountPoint : String
  devicePath : String
  volumeName : String
deriving DecidableEq

/-- `MacOSAutomation.parseDMGMountOutput` (lines 399–433): scan the lines,
then fail with the hard parse error when no mount point was captured. -/
def parseDMGMountOutput (plistData : String) : Except String DMGMountInfo := do
  let (mp, dp) ← parseLoop (splitLines plistData.data) ([], [])
  if mp.isEmpty then Except.error "Failed to parse DMG mount output"
  else pure ⟨String.mk mp, String.mk dp, posixBasename (String.mk mp)⟩

/-- `MacOSAutomation.mountDMG` (lines 25–48): error when the image path is
missing (`fs.access` throws), propagate an `hdiutil attach` failure, parse
the trimmed plist output, and push the mount point onto `mountedDMGs`. -/
def mountDMG (dmgExists : Bool) (attachResult : Except String String)
    (mountedDMGs : List String) : Except String (DMGMountInfo × List String) :=
  if !dmgExists then
    .error "DMG file not found"
  else
    match attachResult with
    | .error e => .error e
    | .ok result => do
        let mountInfo ← parseDMGMountOutput (jsTrim result)
        pure (mountInfo, mountedDMGs ++ [mountInfo.mountPoint])

/-! ## Process lookup (`MacOSAutomation.findProcessesByName`, lines 161–177)

The `ps aux | grep -i name | grep -v grep` pipeline is an oracle: it
throws when `grep` matches nothing (nonzero exit) and otherwise returns
its stdout.  The catch block maps any failure to `[]`.  Each kept line is
split with the regex literal `/\\s+/`, which (again because `\\` is one
literal backslash) separates on a literal backslash followed by a run of
`s` characters — not on whitespace. -/

/-- JavaScript `parseInt`: skip leading whitespace, optional sign, then
leading decimal digits; `none` models `NaN`. -/
def jsParseInt (s : String) : Option Int :=
  let t := s.data.dropWhile Char.isWhitespace
  let signed : Int × List Char :=
    match t with
    | '-' :: r => (-1, r)
    | '+' :: r => (1, r)
    | _ => (1, t)
  let ds := signed.2.takeWhile Char.isDigit
  if ds.isEmpty then none
  else some (signed.1 * (ds.foldl (fun n c => n * 10 + (c.toNat - 48)) 0 : Nat))

/-- `line.split(/\\s+/)`: split on a literal backslash followed by one or
more `s` characters. -/
def splitBSAux : List Char → List Char → List (List Char)
  | [], acc => [acc.reverse]
  | '\\' :: 's' :: rest, acc =>
      acc.reverse :: splitBSAux (rest.dropWhile (· == 's')) []
  | c :: rest, acc => splitBSAux rest (c :: acc)
termination_by cs _ => cs.length
decreasing_by
  · have := (List.dropWhile_suffix (l := rest) (fun c => c == 's')).length_le
    simp only [List.length_cons]
    omega
  · simp only [List.length_cons]
    omega

/-- A `ProcessInfo` record; `pid` is `none` when `parseInt` gave `NaN`. -/
structure ProcessInfo where
  pid : Option Int
  name : String
  command : String
deriving DecidableEq

/-- `MacOSAutomation.findProcessesByName`: on pipeline failure return `[]`;
otherwise split the trimmed output into non-empty lines and build one
record per line, with `name` always the queried `processName`. -/
def findProcessesByName (psResult : Except String String) (processName : String) :
    List ProcessInfo :=
  match psResult with
  | .error _ => []
  | .ok result =>
      let lines := (splitLines (jsTrim result).data).filter (fun l => l.length > 0)
      lines.map (fun line =>
        let parts := splitBSAux (jsTrim (String.mk line)).data []
        { pid := (parts.get? 1).bind (fun t => jsParseInt (String.mk t))
          name := processName
          command := String.intercalate " " ((parts.drop 10).map String.mk) })

/-! ## Results: interactive prompt driving -/

/-- Once-guard budget of the CLI Error Handling handler: responses written
so far plus the remaining allowance of its `emailPromptReceived` flag. -/
def errBudget (st : ErrHandlerState) : Nat :=
  st.writes.length + (if st.emailPromptReceived then 0 else 1)

theorem errHandlerStep_budget (st : ErrHandlerState) (chunk : String) :
    errBudget (errHandlerStep st chunk) ≤ errBudget st := by
  unfold errHandlerStep
  dsimp only
  split
  · next h =>
      rw [Bool.and_eq_true, Bool.not_eq_true'] at h
      simp [errBudget, h.1]
  · split
    · simp [errBudget]
    · simp [errBudget]

theorem errHandlerGo_budget (chunks : List String) :
    ∀ st : ErrHandlerState, errBudget (errHandlerGo chunks st) ≤ errBudget st := by
  induction chunks with
  | nil => intro st; exact le_refl _
  | cons c rest ih =>
      intro st
      exact le_trans (ih (errHandlerStep st c)) (errHandlerStep_budget st c)

/-- C2 (amended): the CLI Error Handling stdout handler writes its scripted
invalid-email response at most once per run, for every sequence of output
chunks, thanks to its `emailPromptReceived` guard; the Terminal Mode
Installation handler has no such guard and responds anew on every chunk
containing the prompt text (see its counterexample). -/
theorem errHandler_writes_at_most_once (chunks : List String) :
    (errHandlerRun chunks).writes.length ≤ 1 := by
  have h2 : (errHandlerRun chunks).writes.length
      + (if (errHandlerRun chunks).emailPromptReceived then 0 else 1) ≤ 1 := by
    simpa [errHandlerRun, errBudget] using
      errHandlerGo_budget chunks ⟨"", false, false, [], false⟩
  exact le_trans (Nat.le_add_right _ _) h2

/-- C2 counterexample: in the Terminal Mode Installation stdout handler the
same email prompt arriving in two chunks elicits the scripted response
twice — the driver does not fire each rule at most once per run. -/
theorem terminal_repeated_prompt_writes_twice :
    (terminalHandlerRun "cli.test@bali.love"
        ["Enter your work email:", "Enter your work email:"]).writes
      = ["cli.test@bali.love\n", "cli.test@bali.love\n"] := rfl

theorem terminalHandlerGo_writes (testEmail : String) (chunks : List String) :
    ∀ st : TerminalRun,
      (terminalHandlerGo testEmail chunks st).writes
        = st.writes ++ chunks.flatMap (terminalChunkResponses testEmail) := by
  induction chunks with
  | nil => intro st; simp [terminalHandlerGo]
  | cons c rest ih =>
      intro st
      rw [terminalHandlerGo]
      by_cases hA : (jsIncludes c "Enter your work email:" || jsIncludes c "📧") = true
      · by_cases hB : (jsIncludes c "Ready to install?" || jsIncludes c "🚀") = true
        · simp [hA, hB, ih, terminalChunkResponses, List.flatMap_cons]
        · simp [hA, hB, ih, terminalChunkResponses, List.flatMap_cons]
      · by_cases hB : (jsIncludes c "Ready to install?" || jsIncludes c "🚀") = true
        · simp [hA, hB, ih, terminalChunkResponses, List.flatMap_cons]
        · simp [hA, hB, ih, terminalChunkResponses, List.flatMap_cons]

/-- C3 (amended): prompt detection happens against each individual output
chunk, not the accumulated buffer (`stdout` is only recorded for later
assertions): the responses written by the Terminal Mode handler are exactly
the concatenation of each chunk's own matches, so a prompt split across
chunks is never answered. -/
theorem terminal_detection_is_chunk_local (testEmail : String) (chunks : List String) :
    (terminalHandlerRun testEmail chunks).writes
      = chunks.flatMap (terminalChunkResponses testEmail) := by
  unfold terminalHandlerRun
  rw [terminalHandlerGo_writes]
  rfl

/-- C3 counterexample: the prompt `Enter your work email:` split across two
consecutive chunks is present in the accumulated buffer, yet the driver
writes no response. -/
theorem terminal_split_prompt_not_recognized :
    (terminalHandlerRun "qa@example.com" ["Enter your work ", "email:"]).writes = []
    ∧ jsIncludes (terminalHandlerRun "qa@example.com" ["Enter your work ", "email:"]).stdout
        "Enter your work email:" = true :=
  ⟨rfl, rfl⟩

/-- C6: `checkGatekeeperStatus` returns `{blocked: false}` with no reason
exactly when the `spctl` assessment succeeds; on a denial it is blocked
with reason `unsigned` iff the error message contains `rejected`, and
`unknown` otherwise. -/
theorem checkGatekeeperStatus_classifies (assessment : Option String) :
    (checkGatekeeperStatus assessment).blocked = assessment.isSome
    ∧ (checkGatekeeperStatus assessment).reason
        = assessment.map
            (fun msg => if jsIncludes msg "rejected" then "unsigned" else "unknown") := by
  cases assessment <;> exact ⟨rfl, rfl⟩

/-! ## Results: unmount retry and cleanup -/

/-- The tracked list after an `unmountDMG` call: a thrown error leaves the
list untouched (the caller's list field is unchanged). -/
def unmountMountedAfter (cleanOk forcedOk : String → Bool) (mounted : List String)
    (mountPoint : String) : List String :=
  match unmountDMG cleanOk forcedOk mounted mountPoint with
  | .ok o => o.mountedDMGs
  | .error _ => mounted

/-- C4 counterexample: when the clean detach and the forced detach both
fail, `unmountDMG` rethrows the forced-detach error instead of surfacing a
warning and returning normally. -/
theorem unmountDMG_force_fail_raises :
    unmountDMG (fun _ => false) (fun _ => false) ["/Volumes/ActivityWatch"]
        "/Volumes/ActivityWatch"
      = .error ("Force unmount also failed",
          [DetachAttempt.clean "/Volumes/ActivityWatch" false,
           DetachAttempt.forced "/Volumes/ActivityWatch" false]) := rfl

/-- C4 (amended): `unmountDMG` attempts one clean detach; if that fails it
retries exactly once with a forced detach; a forced-detach success only
surfaces a warning and returns normally, but a forced-detach failure is
rethrown (the call raises).  Only a clean success removes the mount point
from the tracked list. -/
theorem unmountDMG_detach_retry (cleanOk forcedOk : String → Bool)
    (mounted : List String) (m : String) :
    (unmountDMG cleanOk forcedOk mounted m).isOk = (cleanOk m || forcedOk m)
    ∧ unmountAttempts cleanOk forcedOk mounted m
        = (if cleanOk m then [DetachAttempt.clean m true]
          else [DetachAttempt.clean m false, DetachAttempt.forced m (forcedOk m)])
    ∧ unmountMountedAfter cleanOk forcedOk mounted m
        = (if cleanOk m then removeFirst mounted m else mounted) := by
  by_cases h1 : cleanOk m = true
  · refine ⟨?_, ?_, ?_⟩ <;>
      simp [unmountDMG, unmountAttempts, unmountMountedAfter, h1, Except.isOk, Except.toBool]
  · by_cases h2 : forcedOk m = true
    · refine ⟨?_, ?_, ?_⟩ <;>
        simp [unmountDMG, unmountAttempts, unmountMountedAfter, h1, h2, Except.isOk, Except.toBool]
    · refine ⟨?_, ?_, ?_⟩ <;>
        simp [unmountDMG, unmountAttempts, unmountMountedAfter, h1, h2, Except.isOk, Except.toBool]

theorem killSweepProc_killed (sig : Nat → Bool) (p : ChildProc) :
    (killSweepProc sig p).killed = true := by
  unfold killSweepProc
  by_cases h : p.killed = true
  · rw [if_pos h]; exact h
  · rw [if_neg h]

theorem killLoop_eq (sig : Nat → Bool) (ps : List ChildProc) :
    killLoop sig ps
      = (ps.map (killSweepProc sig),
        (ps.filter (fun p => !p.killed)).map (fun p => ReleaseEvent.sigterm p.pid)) := by
  induction ps with
  | nil => rfl
  | cons p ps ih =>
      rw [killLoop]
      by_cases hk : p.killed = true
      · simp [hk, ih, killSweepProc]
      · simp [hk, ih]

theorem dirLoop_eq (rmOk : String → Bool) (ds : List String) :
    dirLoop rmOk ds = ds.map (fun d => ReleaseEvent.rmDir d (rmOk d)) := by
  induction ds with
  | nil => rfl
  | cons d ds ih => rw [dirLoop, ih, List.map_cons]

theorem mountLoop_events_det (cleanOk forcedOk : String → Bool) :
    ∀ (n i : Nat) (mounted : List String), mounted.length - i ≤ n →
      ((mountLoop cleanOk forcedOk i mounted).2.all ReleaseEvent.isDet) = true := by
  intro n
  induction n with
  | zero =>
      intro i mounted h
      rw [mountLoop, dif_neg (by omega)]
      rfl
  | succ n ih =>
      intro i mounted h
      rw [mountLoop]
      by_cases hlt : i < mounted.length
      · rw [dif_pos hlt]
        dsimp only
        split
        · next o hu =>
            have hle := unmountDMG_ok_length_le hu
            dsimp only
            rw [List.all_append]
            refine Bool.and_eq_true_iff.mpr ⟨?_, ih (i + 1) o.mountedDMGs (by omega)⟩
            simp [List.all_eq_true, ReleaseEvent.isDet]
        · next e hu =>
            dsimp only
            rw [List.all_append]
            refine Bool.and_eq_true_iff.mpr ⟨?_, ih (i + 1) mounted (by omega)⟩
            simp [List.all_eq_true, ReleaseEvent.isDet]
      · rw [dif_neg hlt]
        rfl

theorem mountLoop_all_det (cleanOk forcedOk : String → Bool) (i : Nat)
    (mounted : List String) :
    ((mountLoop cleanOk forcedOk i mounted).2.all ReleaseEvent.isDet) = true :=
  mountLoop_events_det cleanOk forcedOk mounted.length i mounted (by omega)

/-- C1 (amended): `cleanup` never raises (every fallible release is inside
a catch) and empties all three tracking lists; it sends SIGTERM to every
spawned process whose handle was not already signalled, so afterwards every
handle is marked killed — but a process survives exactly when it was alive
and either was already signalled (and is skipped) or its termination signal
was ineffective; such a process can remain alive. -/
theorem cleanup_never_raises_and_empties (sig : Nat → Bool)
    (cleanOk forcedOk rmOk : String → Bool) (st : AutomationState) :
    ∃ r : CleanupResult,
      cleanup sig cleanOk forcedOk rmOk st = .ok r
      ∧ r.state.mountedDMGs = [] ∧ r.state.spawnedProcesses = []
      ∧ r.state.tempDirectories = []
      ∧ r.processes = st.spawnedProcesses.map (killSweepProc sig)
      ∧ r.processes.all (fun p => p.killed) = true := by
  refine ⟨⟨⟨[], [], []⟩, (killLoop sig st.spawnedProcesses).1,
      (killLoop sig st.spawnedProcesses).2
        ++ (mountLoop cleanOk forcedOk 0 st.mountedDMGs).2
        ++ dirLoop rmOk st.tempDirectories⟩, rfl, rfl, rfl, rfl, ?_, ?_⟩
  · rw [killLoop_eq]
  · rw [killLoop_eq]
    simp only [List.all_eq_true]
    intro e he
    obtain ⟨p, _, rfl⟩ := List.mem_map.mp he
    exact killSweepProc_killed sig p

/-- C1 counterexample: a spawned process whose SIGTERM is ineffective (or
whose handle was already flagged killed) survives `cleanup`: the call
returns normally with all lists cleared, yet the process is still alive —
refuting «no spawned process remains alive». -/
theorem cleanup_process_survives_cex :
    (cleanup (fun _ => false) (fun _ => true) (fun _ => true) (fun _ => true)
        ⟨[], [⟨7, false, true⟩], []⟩).map
      (fun r => (r.state.spawnedProcesses, r.processes.map (fun p => p.alive)))
      = .ok ([], [true]) := rfl

/-- C9 (amended): `cleanup` releases by category — spawned processes first,
then DMG detach attempts, then temp-directory removals — iterating each
list in forward acquisition order (not reverse); successful unmounts splice
the mount list during its own iteration, so alternate mounts are skipped.
Afterwards all three lists are cleared. -/
theorem cleanup_release_order (sig : Nat → Bool)
    (cleanOk forcedOk rmOk : String → Bool) (st : AutomationState) :
    ∃ r : CleanupResult,
      cleanup sig cleanOk forcedOk rmOk st = .ok r
      ∧ r.events
          = (st.spawnedProcesses.filter (fun p => !p.killed)).map
              (fun p => ReleaseEvent.sigterm p.pid)
            ++ (mountLoop cleanOk forcedOk 0 st.mountedDMGs).2
            ++ st.tempDirectories.map (fun d => ReleaseEvent.rmDir d (rmOk d))
      ∧ ((mountLoop cleanOk forcedOk 0 st.mountedDMGs).2.all ReleaseEvent.isDet) = true
      ∧ r.state = ⟨[], [], []⟩ := by
  refine ⟨_, rfl, ?_, mountLoop_all_det cleanOk forcedOk 0 st.mountedDMGs, rfl⟩
  dsimp only [cleanup]
  rw [killLoop_eq, dirLoop_eq]

/-- C9 counterexample: two processes spawned in the order pid 1 then pid 2
are released in that same forward order — the earlier-acquired resource is
released first, refuting reverse-acquisition-order release. -/
theorem cleanup_forward_order_cex :
    (cleanup (fun _ => true) (fun _ => true) (fun _ => true) (fun _ => true)
        ⟨[], [⟨1, false, true⟩, ⟨2, false, true⟩], []⟩).map (fun r => r.events)
      = .ok [ReleaseEvent.sigterm 1, ReleaseEvent.sigterm 2] := by
  have hm : mountLoop (fun _ : String => true) (fun _ : String => true) 0 [] = ([], []) := by
    unfold mountLoop
    rfl
  simp [cleanup, hm, killLoop_eq, dirLoop_eq, Except.map]

/-! ## Results: launch timeout, mount parsing, quarantine, process lookup -/

/-- C5: against a process that never becomes observable, the poll of
`launchApp` settles on the timeout rejection, at an elapsed time strictly
greater than the configured timeout and at most one polling interval
beyond it; the settling tick always exists, so the wait is bounded. -/
theorem launchApp_timeout_boundary (timeoutMs : Nat) :
    launchOutcome timeoutMs (fun _ => false)
        = .timedOutAt (launchFinalTick timeoutMs (fun _ => false))
    ∧ timeoutMs < launchPollIntervalMs * launchFinalTick timeoutMs (fun _ => false)
    ∧ launchPollIntervalMs * launchFinalTick timeoutMs (fun _ => false)
        ≤ timeoutMs + launchPollIntervalMs := by
  have hhalts := launch_poll_halts timeoutMs (fun _ => false)
  set j := Nat.find hhalts with hj
  have hft : launchFinalTick timeoutMs (fun _ => false) = j + 1 := rfl
  have hgt : launchPollIntervalMs * (j + 1) > timeoutMs := by
    by_contra hng
    have hsp := Nat.find_spec hhalts
    rw [show launchTickResult timeoutMs (fun _ => false) (j + 1) = none by
      simp [launchTickResult, hng]] at hsp
    simp at hsp
  have hres : launchTickResult timeoutMs (fun _ => false) (j + 1)
      = some (LaunchOutcome.timedOutAt (j + 1)) := by
    simp [launchTickResult, hgt]
  refine ⟨?_, ?_, ?_⟩
  · have h2 : some (launchOutcome timeoutMs (fun _ => false))
        = launchTickResult timeoutMs (fun _ => false) (j + 1) := by
      rw [← hft]
      exact Option.some_get _
    rw [hres] at h2
    rw [hft]
    exact Option.some.inj h2
  · rw [hft]
    exact hgt
  · rw [hft]
    rcases Nat.eq_zero_or_pos j with hj0 | hjpos
    · rw [hj0]
      unfold launchPollIntervalMs
      omega
    · have hmin := Nat.find_min hhalts (show j - 1 < j by omega)
      have hle : ¬ launchPollIntervalMs * j > timeoutMs := by
        intro hgt'
        apply hmin
        rw [show j - 1 + 1 = j by omega]
        rw [show launchTickResult timeoutMs (fun _ => false) j
            = some (LaunchOutcome.timedOutAt j) by simp [launchTickResult, hgt']]
        rfl
      unfold launchPollIntervalMs at hle ⊢
      omega

/-- C7 (code bug): the parser's regex literal is written
`/<string>(.*)<\\/string>/`, and `\\` in a regex literal is one literal
backslash, so a well-formed hdiutil report whose `mount-point` field IS
present still raises the hard parse error; only the bogus `<\/string>`
spelling is accepted (second conjunct, showing the captured values).  The
missing-image and failed-attach paths of `mountDMG` error as specified. -/
theorem mountDMG_parse_rejects_wellformed_report :
    parseDMGMountOutput
        "<key>mount-point</key>\n\t\t<string>/Volumes/ActivityWatch</string>"
      = .error "Failed to parse DMG mount output"
    ∧ (parseDMGMountOutput
        "<key>mount-point</key>\n\t\t<string>/Volumes/ActivityWatch<\\/string>").toOption
      = some ⟨"/Volumes/ActivityWatch", "", "ActivityWatch"⟩
    ∧ mountDMG false (.ok "") [] = .error "DMG file not found"
    ∧ mountDMG true (.error "hdiutil attach failed") [] = .error "hdiutil attach failed" :=
  ⟨rfl, rfl, rfl, rfl⟩

/-- C8 counterexample: a path that starts out quarantined reports
`blocked = true` before the round trip; after `setQuarantineAttribute
(path, true)` followed by `setQuarantineAttribute (path, false)` it reports
`blocked = false` — the original value is not restored. -/
theorem quarantine_round_trip_cex :
    (checkGatekeeperStatusOS
        (fun p => p == "/Applications/ActivityWatch Team Installer.app")
        "/Applications/ActivityWatch Team Installer.app").blocked = true
    ∧ (checkGatekeeperStatusOS
        (setQuarantineAttribute true
          (setQuarantineAttribute true
            (fun p => p == "/Applications/ActivityWatch Team Installer.app")
            "/Applications/ActivityWatch Team Installer.app" true)
          "/Applications/ActivityWatch Team Installer.app" false)
        "/Applications/ActivityWatch Team Installer.app").blocked = false :=
  ⟨rfl, rfl⟩

/-- C8 (amended): the set-then-remove round trip always leaves the path
unquarantined, hence unblocked; it therefore restores the original
`blocked` value exactly when the path was not blocked before the calls. -/
theorem quarantine_round_trip (st : QuarantineState) (p : String) :
    (checkGatekeeperStatusOS
        (setQuarantineAttribute true (setQuarantineAttribute true st p true) p false)
        p).blocked = false
    ∧ ((checkGatekeeperStatusOS
          (setQuarantineAttribute true (setQuarantineAttribute true st p true) p false)
          p).blocked = (checkGatekeeperStatusOS st p).blocked
        ↔ (checkGatekeeperStatusOS st p).blocked = false) := by
  have hb : ∀ q : QuarantineState, (checkGatekeeperStatusOS q p).blocked = q p := by
    intro q
    by_cases h : q p = true
    · simp [checkGatekeeperStatusOS, spctlAssess, checkGatekeeperStatus, h]
    · simp [checkGatekeeperStatusOS, spctlAssess, checkGatekeeperStatus,
        eq_false_of_ne_true h]
  have h1 : (setQuarantineAttribute true (setQuarantineAttribute true st p true) p false) p
      = false := by
    simp [setQuarantineAttribute, xattrApply]
  rw [hb, hb, h1]
  exact ⟨rfl, ⟨fun h => h.symm, fun h => h.symm⟩⟩

/-- C10: `findProcessesByName` is total at its interface: a failing
`ps aux | grep` pipeline is caught and yields `[]` (so an empty set of
matching lines, which exits the pipeline nonzero, also yields `[]`), and
every record of any result carries the queried process name in its `name`
field. -/
theorem findProcessesByName_total (psResult : Except String String)
    (msg processName : String) :
    findProcessesByName (.error msg) processName = []
    ∧ (findProcessesByName psResult processName).all
        (fun p => p.name == processName) = true := by
  refine ⟨rfl, ?_⟩
  cases psResult with
  | error e => rfl
  | ok result =>
      simp only [findProcessesByName, List.all_eq_true]
      intro x hx
      rw [List.mem_map] at hx
      obtain ⟨line, _, rfl⟩ := hx
      exact beq_self_eq_true processName

end AWInstaller
